import Mathlib

/-!
Shallow embedding of `src/Altitude.py`: the avionics altitude regulator
(`calculateur`), the ARINC429 encoder (`encoder_ARINC429`) and its
bit-packing helpers (`compute_parity`, `bcd_encode`).

Python floats are modelled by ℚ (every literal of the source — 3.28084,
0.5, 15.0 — is exact in ℚ), Python ints by ℤ (they are unbounded), bit
words by ℕ.  Python `print` of the stall warning is modelled as a Bool
returned next to the mutated state.  `int(ch)` applied to the character
`-` raises, so `bcd_encode` of a negative value is `none`.
-/

/-- Constant `ALTITUDE_MAX = 40000` of the source. -/
def ALTITUDE_MAX : ℤ := 40000

/-- The enum `EtatAvionique` of the source (AU_SOL=0, CHANGEMENT_ALT=1, VOL_CROISIÈRE=2). -/
inductive EtatAvionique
  | AU_SOL
  | CHANGEMENT_ALT
  | VOL_CROISIERE
deriving DecidableEq

/-- The numeric `.value` of the Python enum members. -/
def EtatAvionique.value : EtatAvionique → ℕ
  | .AU_SOL => 0
  | .CHANGEMENT_ALT => 1
  | .VOL_CROISIERE => 2

/-- The mutable record `SystemeAvion` of the source. -/
@[ext]
structure SystemeAvion where
  altitude_actuelle : ℤ
  taux_monte : ℚ
  angle_attaque : ℚ
  puissance_moteur : ℤ
  etat : EtatAvionique
deriving DecidableEq

/-- `SystemeAvion.__init__`: all fields zero, state AU_SOL. -/
def systemeInitial : SystemeAvion :=
  { altitude_actuelle := 0, taux_monte := 0, angle_attaque := 0,
    puissance_moteur := 0, etat := .AU_SOL }

/-- Python `int(q)` on a float/rational value: truncation toward zero
(`⌈q⌉ = -⌊-q⌋` for negative `q`). -/
def pyInt (q : ℚ) : ℤ := if 0 ≤ q then ⌊q⌋ else -⌊-q⌋

/-- Python `round(q)`: round half to even. -/
def pyRound (q : ℚ) : ℤ :=
  if q - ⌊q⌋ < 1/2 then ⌊q⌋
  else if 1/2 < q - ⌊q⌋ then ⌊q⌋ + 1
  else if ⌊q⌋ % 2 = 0 then ⌊q⌋ else ⌊q⌋ + 1

/-- Fuel-driven helper for `popCount` (structural recursion so that the
kernel can evaluate it; the fuel is an upper bound on the argument). -/
def popCountAux : ℕ → ℕ → ℕ
  | _, 0 => 0
  | 0, _ + 1 => 0
  | fuel + 1, n + 1 => (n + 1) % 2 + popCountAux fuel ((n + 1) / 2)

/-- Python `bin(word).count("1")`: the number of set bits of a natural number. -/
def popCount (n : ℕ) : ℕ := popCountAux n n

/-- `compute_parity` of the source: 1 when the count of set bits is even, else 0. -/
def compute_parity (word : ℕ) : ℕ := if popCount word % 2 = 0 then 1 else 0

/-- Fuel-driven helper for `chiffres10` (structural recursion; the fuel is
an upper bound on the argument). -/
def chiffresAux : ℕ → ℕ → List ℕ
  | _, 0 => []
  | 0, _ + 1 => []
  | fuel + 1, n + 1 => (n + 1) % 10 :: chiffresAux fuel ((n + 1) / 10)

/-- The little-endian decimal digits of `n` (empty for `n = 0`). -/
def chiffres10 (n : ℕ) : List ℕ := chiffresAux n n

/-- Python `str(value)` of a non-negative integer, as the list of decimal
digit values, most significant first (`str(0)` is `"0"`). -/
def strNat (n : ℕ) : List ℕ := if n = 0 then [0] else (chiffres10 n).reverse

/-- Python `s.zfill(digits)` on a digit string: pad with zeros on the left
up to length `digits`; a longer string is returned unchanged. -/
def zfill (digits : ℕ) (s : List ℕ) : List ℕ := List.replicate (digits - s.length) 0 ++ s

/-- The loop of `bcd_encode`: `bcd = (bcd << 4) | int(char)` over the
zero-filled digit string. -/
def bcd_encodeNat (value digits : ℕ) : ℕ :=
  (zfill digits (strNat value)).foldl (fun bcd c => (bcd <<< 4) ||| c) 0

/-- `bcd_encode` of the source.  For a negative value `str(value)` starts
with the character `-`, on which `int(char)` raises `ValueError`: that
error path is `none`. -/
def bcd_encode (value : ℤ) (digits : ℕ) : Option ℕ :=
  if value < 0 then none else some (bcd_encodeNat value.toNat digits)

/-- Python `a & 0xFFFF` on an arbitrary int: `0xFFFF` is all ones over 16
bits and Python negative ints behave as infinite two's complement, so the
mask equals the non-negative remainder `a mod 2^16`. -/
def masque16 (a : ℤ) : ℕ := (a % 65536).toNat

/-- `encoder_ARINC429` of the source: three 32-bit words (altitude label
0x01, climb-rate label 0x02, angle label 0x03), each with SSM = 0b11 in
bits 2-1 and the odd-parity bit OR-ed into bit 0. -/
def encoder_ARINC429 (sys_avion : SystemeAvion) : Option (ℕ × ℕ × ℕ) := do
  let altitude_word0 := (0x01 <<< 24) ||| ((sys_avion.etat.value &&& 0x03) <<< 20) |||
      (masque16 sys_avion.altitude_actuelle <<< 4) ||| (0x03 <<< 1)
  let altitude_word := altitude_word0 ||| compute_parity altitude_word0
  let rate_value := pyRound (|sys_avion.taux_monte| * 10)
  let rate_bcd ← bcd_encode rate_value 4
  let taux_word0 := (0x02 <<< 24) ||| (rate_bcd <<< 4) ||| (0x03 <<< 1)
  let taux_word := taux_word0 ||| compute_parity taux_word0
  let angle_value := pyRound (|sys_avion.angle_attaque| * 10)
  let angle_bcd0 ← bcd_encode angle_value 3
  let angle_bcd := angle_bcd0 <<< 4
  let angle_word0 := (0x03 <<< 24) ||| (angle_bcd <<< 4) ||| (0x03 <<< 1)
  let angle_word := angle_word0 ||| compute_parity angle_word0
  return (altitude_word, taux_word, angle_word)

/-- The altitude word (label 0x01) that `encoder_ARINC429` produces. -/
def mot_altitude (s : SystemeAvion) : ℕ :=
  let w := (0x01 <<< 24) ||| ((s.etat.value &&& 0x03) <<< 20) |||
      (masque16 s.altitude_actuelle <<< 4) ||| (0x03 <<< 1)
  w ||| compute_parity w

/-- The climb-rate word (label 0x02) that `encoder_ARINC429` produces. -/
def mot_taux (s : SystemeAvion) : ℕ :=
  let w := (0x02 <<< 24) ||| ((bcd_encodeNat (pyRound (|s.taux_monte| * 10)).toNat 4) <<< 4) |||
      (0x03 <<< 1)
  w ||| compute_parity w

/-- The angle word (label 0x03) that `encoder_ARINC429` produces. -/
def mot_angle (s : SystemeAvion) : ℕ :=
  let w := (0x03 <<< 24) |||
      (((bcd_encodeNat (pyRound (|s.angle_attaque| * 10)).toNat 3) <<< 4) <<< 4) ||| (0x03 <<< 1)
  w ||| compute_parity w

/-- The numeric value of a little-endian list of 4-bit nibbles (the
arithmetic reading of the packing loop of `bcd_encode`). -/
def valeurNibbles : List ℕ → ℕ
  | [] => 0
  | c :: l => c + 16 * valeurNibbles l

/-- Lines 124-126 of the source: in VOL_CROISIÈRE, a desired altitude that
differs from the current one switches the state to CHANGEMENT_ALT. -/
def transitionCroisiere (altitude_desiree : ℤ) (s : SystemeAvion) : SystemeAvion :=
  if s.etat = .VOL_CROISIERE ∧ altitude_desiree ≠ s.altitude_actuelle then
    { s with etat := .CHANGEMENT_ALT }
  else s

/-- Lines 129-134 of the source: takeoff from AU_SOL, with the default
climb profile (rate 100, angle 5) substituted when both inputs are zero.
Returns the updated state and the (possibly defaulted) rate and angle
inputs. -/
def transitionSol (altitude_desiree taux_entree angle_entree puissance : ℤ)
    (s : SystemeAvion) : SystemeAvion × ℤ × ℤ :=
  if s.etat = .AU_SOL ∧
      ((altitude_desiree > 0 ∧ puissance > 0) ∨ (taux_entree ≠ 0 ∧ angle_entree ≠ 0)) then
    ({ s with etat := .CHANGEMENT_ALT },
     if taux_entree = 0 ∧ angle_entree = 0 then (100, 5) else (taux_entree, angle_entree))
  else (s, taux_entree, angle_entree)

/-- Lines 136-157 of the source: the CHANGEMENT_ALT block.  Computes the
climb rate from the engine power, halves it within 1000 ft of the target,
negates rate and angle for a descent, stores them, emits the stall-angle
warning (`angle_attaque > 15.0`), and enters VOL_CROISIÈRE when the
desired altitude is reached (and nonzero) or ALTITUDE_MAX is crossed.
Returns the updated state and the warning flag. -/
def blocChangement (altitude_desiree angle_entree puissance : ℤ)
    (s : SystemeAvion) : SystemeAvion × Bool :=
  if s.etat = .CHANGEMENT_ALT then
    let taux_calcule : ℚ := ((puissance : ℚ) / 10) * 100
    let angle1 : ℤ := if angle_entree = 0 then 5 else angle_entree
    let taux2 : ℚ :=
      if s.altitude_actuelle < altitude_desiree then
        (if altitude_desiree - s.altitude_actuelle < 1000 then taux_calcule * 0.5
         else taux_calcule)
      else if s.altitude_actuelle > altitude_desiree then
        -(if s.altitude_actuelle - altitude_desiree < 1000 then taux_calcule * 0.5
          else taux_calcule)
      else taux_calcule
    let angle2 : ℤ :=
      if s.altitude_actuelle < altitude_desiree then angle1
      else if s.altitude_actuelle > altitude_desiree then -angle1
      else angle1
    let s1 := { s with taux_monte := taux2, angle_attaque := (angle2 : ℚ),
                       puissance_moteur := puissance }
    let avertissement := decide (s1.angle_attaque > 15)
    let s2 :=
      if (s1.altitude_actuelle = altitude_desiree ∧ altitude_desiree ≠ 0) ∨
          s1.altitude_actuelle ≥ ALTITUDE_MAX then
        { s1 with etat := .VOL_CROISIERE, taux_monte := 0 }
      else s1
    (s2, avertissement)
  else (s, false)

/-- Lines 159-162 of the source: the VOL_CROISIÈRE block zeroes rate and
angle and records the commanded power. -/
def blocCroisiere (puissance : ℤ) (s : SystemeAvion) : SystemeAvion :=
  if s.etat = .VOL_CROISIERE then
    { s with taux_monte := 0, angle_attaque := 0, puissance_moteur := puissance }
  else s

/-- Lines 164-167 of the source: integrate the climb rate (m/min converted
to ft/min by 3.28084, scaled by `dt/60`, truncated toward zero by `int`)
and clamp the altitude to `[0, ALTITUDE_MAX]`. -/
def integration (dt : ℚ) (s : SystemeAvion) : SystemeAvion :=
  let delta_alt := pyInt ((s.taux_monte * 3.28084) * (dt / 60))
  { s with altitude_actuelle := max 0 (min (s.altitude_actuelle + delta_alt) ALTITUDE_MAX) }

/-- `calculateur` of the source (lines 122-169): one tick of the regulator.
The Python function mutates `sys_avion` in place, prints the stall warning
and returns the ARINC429 triple; here it returns the new state, the
warning flag and the encoded words. -/
def calculateur (altitude_desiree taux_entree angle_entree puissance : ℤ)
    (sys_avion : SystemeAvion) (dt : ℚ) :
    SystemeAvion × Bool × Option (ℕ × ℕ × ℕ) :=
  let s1 := transitionCroisiere altitude_desiree sys_avion
  let r2 := transitionSol altitude_desiree taux_entree angle_entree puissance s1
  let r3 := blocChangement altitude_desiree r2.2.2 puissance r2.1
  let s4 := blocCroisiere puissance r3.1
  let s5 := integration dt s4
  (s5, r3.2, encoder_ARINC429 s5)

/-- One row of inputs for a `calculateur` call. -/
structure Entrees where
  altitude_desiree : ℤ
  taux_entree : ℤ
  angle_entree : ℤ
  puissance : ℤ
  dt : ℚ

/-- The state after a sequence of `calculateur` calls starting from the
initial state (the simulation loop of the source). -/
def executer (l : List Entrees) : SystemeAvion :=
  l.foldl
    (fun s e =>
      (calculateur e.altitude_desiree e.taux_entree e.angle_entree e.puissance s e.dt).1)
    systemeInitial

/-! ## Bit-counting lemmas -/

theorem popCountAux_zero (fuel : ℕ) : popCountAux fuel 0 = 0 := by
  cases fuel <;> rfl

theorem popCountAux_fuel {f1 f2 n : ℕ} (h1 : n ≤ f1) (h2 : n ≤ f2) :
    popCountAux f1 n = popCountAux f2 n := by
  induction f1 generalizing f2 n with
  | zero =>
    have : n = 0 := by omega
    subst this
    rw [popCountAux_zero, popCountAux_zero]
  | succ f1 ih =>
    cases n with
    | zero => rw [popCountAux_zero, popCountAux_zero]
    | succ n =>
      cases f2 with
      | zero => omega
      | succ f2 =>
        show (n + 1) % 2 + popCountAux f1 ((n + 1) / 2) =
          (n + 1) % 2 + popCountAux f2 ((n + 1) / 2)
        rw [@ih f2 ((n + 1) / 2) (by omega) (by omega)]

theorem popCount_def (n : ℕ) : popCount n = n % 2 + popCount (n / 2) := by
  match n with
  | 0 => simp [popCount, popCountAux_zero]
  | n + 1 =>
    show (n + 1) % 2 + popCountAux n ((n + 1) / 2) = _
    rw [@popCountAux_fuel n ((n + 1) / 2) ((n + 1) / 2) (by omega) le_rfl]
    rfl

theorem popCount_add_one_of_even {w : ℕ} (h : w % 2 = 0) :
    popCount (w + 1) = popCount w + 1 := by
  rw [popCount_def (w + 1), popCount_def w]
  have h1 : (w + 1) % 2 = 1 := by omega
  have h2 : (w + 1) / 2 = w / 2 := by omega
  rw [h1, h2]
  omega

theorem lor_one_of_even {w : ℕ} (h : w % 2 = 0) : w ||| 1 = w + 1 := by
  obtain ⟨k, rfl⟩ : ∃ k, w = 2 * k := ⟨w / 2, by omega⟩
  have h2 := (Nat.mul_add_lt_is_or (b := 1) (i := 1) (by norm_num) k).symm
  simpa [pow_one] using h2

theorem lor_even {a b : ℕ} (ha : a % 2 = 0) (hb : b % 2 = 0) : (a ||| b) % 2 = 0 := by
  have h := Nat.or_mod_two_eq_one (a := a) (b := b)
  omega

theorem shiftLeft_even (a : ℕ) {k : ℕ} (h : 1 ≤ k) : (a <<< k) % 2 = 0 := by
  obtain ⟨j, rfl⟩ : ∃ j, k = j + 1 := ⟨k - 1, by omega⟩
  rw [Nat.shiftLeft_eq, pow_succ, ← mul_assoc]
  exact Nat.mul_mod_left _ 2

theorem popCount_lor_parity {w : ℕ} (h : w % 2 = 0) :
    popCount (w ||| compute_parity w) % 2 = 1 := by
  unfold compute_parity
  by_cases hp : popCount w % 2 = 0
  · rw [if_pos hp, lor_one_of_even h, popCount_add_one_of_even h]
    omega
  · rw [if_neg hp, Nat.or_zero]
    omega

/-! ## ARINC429 encoder lemmas -/

theorem pyRound_nonneg {q : ℚ} (h : 0 ≤ q) : 0 ≤ pyRound q := by
  have h0 : (0 : ℤ) ≤ ⌊q⌋ := by
    rw [Int.le_floor]
    exact_mod_cast h
  unfold pyRound
  split_ifs <;> omega

theorem bcd_encode_of_nonneg {v : ℤ} (d : ℕ) (h : 0 ≤ v) :
    bcd_encode v d = some (bcd_encodeNat v.toNat d) := by
  rw [bcd_encode, if_neg (by omega)]

theorem encoder_ARINC429_eq (s : SystemeAvion) :
    encoder_ARINC429 s = some (mot_altitude s, mot_taux s, mot_angle s) := by
  have hr : 0 ≤ pyRound (|s.taux_monte| * 10) :=
    pyRound_nonneg (by positivity)
  have ha : 0 ≤ pyRound (|s.angle_attaque| * 10) :=
    pyRound_nonneg (by positivity)
  simp only [encoder_ARINC429, bcd_encode_of_nonneg 4 hr, bcd_encode_of_nonneg 3 ha,
    Option.bind_eq_bind, Option.some_bind]
  rfl

theorem mot_altitude_impair (s : SystemeAvion) : popCount (mot_altitude s) % 2 = 1 := by
  apply popCount_lor_parity
  exact lor_even (lor_even (lor_even (shiftLeft_even _ (by norm_num))
    (shiftLeft_even _ (by norm_num))) (shiftLeft_even _ (by norm_num)))
    (shiftLeft_even _ (by norm_num))

theorem mot_taux_impair (s : SystemeAvion) : popCount (mot_taux s) % 2 = 1 := by
  apply popCount_lor_parity
  exact lor_even (lor_even (shiftLeft_even _ (by norm_num))
    (shiftLeft_even _ (by norm_num))) (shiftLeft_even _ (by norm_num))

theorem mot_angle_impair (s : SystemeAvion) : popCount (mot_angle s) % 2 = 1 := by
  apply popCount_lor_parity
  exact lor_even (lor_even (shiftLeft_even _ (by norm_num))
    (shiftLeft_even _ (by norm_num))) (shiftLeft_even _ (by norm_num))

/-- Claim C2: odd-parity correctness.  `compute_parity` returns 1 exactly
when the pre-parity word has an even number of set bits, and every word
returned by `encoder_ARINC429` has an odd population count. -/
theorem claim_C2 :
    (∀ w : ℕ, compute_parity w = 1 ↔ popCount w % 2 = 0) ∧
    ∀ (s : SystemeAvion) (w1 w2 w3 : ℕ),
      encoder_ARINC429 s = some (w1, w2, w3) →
        popCount w1 % 2 = 1 ∧ popCount w2 % 2 = 1 ∧ popCount w3 % 2 = 1 := by
  constructor
  · intro w
    unfold compute_parity
    by_cases hp : popCount w % 2 = 0
    · simp [hp]
    · simp [hp]
  · intro s w1 w2 w3 h
    rw [encoder_ARINC429_eq] at h
    obtain ⟨h1, h2, h3⟩ : mot_altitude s = w1 ∧ mot_taux s = w2 ∧ mot_angle s = w3 := by
      simpa using h
    exact ⟨h1 ▸ mot_altitude_impair s, h2 ▸ mot_taux_impair s, h3 ▸ mot_angle_impair s⟩

/-- Claim C2 witness: the three words of the initial state have odd parity. -/
theorem claim_C2_temoin :
    popCount (mot_altitude systemeInitial) % 2 = 1 ∧
    popCount (mot_taux systemeInitial) % 2 = 1 ∧
    popCount (mot_angle systemeInitial) % 2 = 1 :=
  claim_C2.2 systemeInitial _ _ _ (encoder_ARINC429_eq systemeInitial)

/-! ## Decimal digits and BCD packing -/

theorem chiffresAux_zero (fuel : ℕ) : chiffresAux fuel 0 = [] := by
  cases fuel <;> rfl

theorem chiffresAux_fuel {f1 f2 n : ℕ} (h1 : n ≤ f1) (h2 : n ≤ f2) :
    chiffresAux f1 n = chiffresAux f2 n := by
  induction f1 generalizing f2 n with
  | zero =>
    have : n = 0 := by omega
    subst this
    rw [chiffresAux_zero, chiffresAux_zero]
  | succ f1 ih =>
    cases n with
    | zero => rw [chiffresAux_zero, chiffresAux_zero]
    | succ n =>
      cases f2 with
      | zero => omega
      | succ f2 =>
        show (n + 1) % 10 :: chiffresAux f1 ((n + 1) / 10) =
          (n + 1) % 10 :: chiffresAux f2 ((n + 1) / 10)
        rw [@ih f2 ((n + 1) / 10) (by omega) (by omega)]

theorem chiffres10_def {n : ℕ} (h : n ≠ 0) :
    chiffres10 n = n % 10 :: chiffres10 (n / 10) := by
  obtain ⟨m, rfl⟩ : ∃ m, n = m + 1 := ⟨n - 1, by omega⟩
  show (m + 1) % 10 :: chiffresAux m ((m + 1) / 10) = _
  rw [@chiffresAux_fuel m ((m + 1) / 10) ((m + 1) / 10) (by omega) le_rfl]
  rfl

theorem chiffres10_lt_dix (n : ℕ) : ∀ c ∈ chiffres10 n, c < 10 := by
  induction n using Nat.strong_induction_on with
  | _ n ih =>
    rcases eq_or_ne n 0 with rfl | h
    · intro c hc
      simp [chiffres10, chiffresAux_zero] at hc
    · rw [chiffres10_def h]
      intro c hc
      rcases List.mem_cons.mp hc with rfl | hc
      · omega
      · exact ih (n / 10) (by omega) c hc

theorem chiffres10_getD (n : ℕ) : ∀ i : ℕ, (chiffres10 n).getD i 0 = n / 10 ^ i % 10 := by
  induction n using Nat.strong_induction_on with
  | _ n ih =>
    intro i
    rcases eq_or_ne n 0 with rfl | h
    · show ([] : List ℕ).getD i 0 = 0 / 10 ^ i % 10
      simp
    · rw [chiffres10_def h]
      cases i with
      | zero => simp
      | succ i =>
        rw [List.getD_cons_succ, ih (n / 10) (by omega) i, Nat.div_div_eq_div_mul, ← pow_succ']

theorem chiffres10_lt_pow (n : ℕ) : n < 10 ^ (chiffres10 n).length := by
  induction n using Nat.strong_induction_on with
  | _ n ih =>
    rcases eq_or_ne n 0 with rfl | h
    · show 0 < 10 ^ (chiffres10 0).length
      positivity
    · rw [chiffres10_def h]
      have h1 := ih (n / 10) (by omega)
      simp only [List.length_cons]
      rw [pow_succ]
      omega

theorem chiffres10_length_le (n : ℕ) : ∀ d : ℕ, n < 10 ^ d → (chiffres10 n).length ≤ d := by
  induction n using Nat.strong_induction_on with
  | _ n ih =>
    intro d h
    rcases eq_or_ne n 0 with rfl | hn
    · show (chiffres10 0).length ≤ d
      show ([] : List ℕ).length ≤ d
      simp
    · rw [chiffres10_def hn]
      cases d with
      | zero =>
        simp at h
        omega
      | succ d =>
        simp only [List.length_cons]
        have h10 : n / 10 < 10 ^ d := by
          rw [pow_succ] at h
          omega
        have := ih (n / 10) (by omega) d h10
        omega

theorem valeurNibbles_append (L : List ℕ) (c : ℕ) :
    valeurNibbles (L ++ [c]) = valeurNibbles L + c * 16 ^ L.length := by
  induction L with
  | nil => simp [valeurNibbles]
  | cons a L ih =>
    show valeurNibbles (a :: (L ++ [c])) = _
    simp only [valeurNibbles, ih, List.length_cons]
    ring

theorem valeurNibbles_lt (L : List ℕ) (h : ∀ c ∈ L, c < 16) :
    valeurNibbles L < 16 ^ L.length := by
  induction L with
  | nil => simp [valeurNibbles]
  | cons a L ih =>
    have ha : a < 16 := h a (by simp)
    have hL := ih (fun c hc => h c (by simp [hc]))
    simp only [valeurNibbles, List.length_cons]
    rw [pow_succ]
    omega

theorem valeurNibbles_replicate (k : ℕ) : valeurNibbles (List.replicate k 0) = 0 := by
  induction k with
  | zero => rfl
  | succ k ih => simp [List.replicate_succ, valeurNibbles, ih]

theorem valeurNibbles_getD (L : List ℕ) (h : ∀ c ∈ L, c < 16) :
    ∀ i : ℕ, valeurNibbles L / 16 ^ i % 16 = L.getD i 0 := by
  induction L with
  | nil =>
    intro i
    simp [valeurNibbles]
  | cons a L ih =>
    intro i
    have ha : a < 16 := h a (by simp)
    have hL : ∀ c ∈ L, c < 16 := fun c hc => h c (by simp [hc])
    cases i with
    | zero =>
      simp only [valeurNibbles, pow_zero, Nat.div_one, List.getD_cons_zero]
      omega
    | succ i =>
      simp only [valeurNibbles, List.getD_cons_succ]
      rw [pow_succ', ← Nat.div_div_eq_div_mul]
      have hq : (a + 16 * valeurNibbles L) / 16 = valeurNibbles L := by omega
      rw [hq, ih hL i]

theorem foldl_bcd (L : List ℕ) (h : ∀ c ∈ L, c < 16) (a : ℕ) :
    L.foldl (fun bcd c => (bcd <<< 4) ||| c) a =
      valeurNibbles L.reverse + a * 16 ^ L.length := by
  induction L generalizing a with
  | nil => simp [valeurNibbles]
  | cons c L ih =>
    have hc : c < 16 := h c (by simp)
    have hL : ∀ x ∈ L, x < 16 := fun x hx => h x (by simp [hx])
    show L.foldl _ ((a <<< 4) ||| c) = _
    rw [ih hL ((a <<< 4) ||| c)]
    have hb : (a <<< 4) ||| c = 16 * a + c := by
      rw [Nat.shiftLeft_eq]
      have h2 : 2 ^ 4 * a + c = 2 ^ 4 * a ||| c :=
        Nat.mul_add_lt_is_or (show c < 2 ^ 4 by omega) a
      rw [mul_comm a (2 ^ 4), ← h2]
      norm_num
    rw [hb, List.reverse_cons, valeurNibbles_append]
    simp only [List.length_reverse, List.length_cons]
    ring

theorem strNat_lt_seize (n : ℕ) : ∀ c ∈ strNat n, c < 16 := by
  intro c hc
  unfold strNat at hc
  split at hc
  · simp at hc
    omega
  · rw [List.mem_reverse] at hc
    have := chiffres10_lt_dix n c hc
    omega

theorem zfill_lt_seize {d : ℕ} {s : List ℕ} (h : ∀ c ∈ s, c < 16) :
    ∀ c ∈ zfill d s, c < 16 := by
  intro c hc
  unfold zfill at hc
  rcases List.mem_append.mp hc with hc | hc
  · have := List.eq_of_mem_replicate hc
    omega
  · exact h c hc

theorem bcd_encodeNat_eq (v d : ℕ) :
    bcd_encodeNat v d = valeurNibbles ((zfill d (strNat v)).reverse) := by
  rw [bcd_encodeNat, foldl_bcd _ (zfill_lt_seize (strNat_lt_seize v)) 0]
  simp

theorem zfill_reverse (d : ℕ) (s : List ℕ) :
    (zfill d s).reverse = s.reverse ++ List.replicate (d - s.length) 0 := by
  rw [zfill, List.reverse_append, List.reverse_replicate]

theorem bcd_encodeNat_zero (d : ℕ) : bcd_encodeNat 0 d = 0 := by
  rw [bcd_encodeNat_eq, zfill_reverse]
  show valeurNibbles ([0].reverse ++ List.replicate (d - 1) 0) = 0
  have : [0].reverse ++ List.replicate (d - 1) 0 = List.replicate (d - 1 + 1) 0 := by
    simp [List.replicate_succ]
  rw [this, valeurNibbles_replicate]

theorem getD_replicate_zero (k j : ℕ) : (List.replicate k (0 : ℕ)).getD j 0 = 0 := by
  induction k generalizing j with
  | zero => simp
  | succ k ih => cases j <;> simp [List.replicate_succ, ih]

/-- Claim C3 counterexample: `bcd_encode(10000, 4)` yields `0x10000 = 65536`,
which does not fit in `4*4` bits, and is not the truncation to the four
low-order digits (that would be 0): `zfill` pads but never truncates. -/
theorem claim_C3_contre :
    bcd_encode 10000 4 = some 65536 ∧ ¬(65536 < 16 ^ 4) ∧
      bcd_encodeNat (10000 % 10 ^ 4) 4 = 0 := by
  refine ⟨by decide, by norm_num, by decide⟩

/-- Claim C3 amended: `bcd_encode` renders `value` left-zero-padded to at
least `d` decimal digits; when `value < 10^d` this is exactly `d` digits
and the result fits in `4*d` bits, but a longer value keeps all its digits
(no truncation), so the bound holds only on that domain. -/
theorem claim_C3 {v d : ℕ} (h : v < 10 ^ d) : bcd_encodeNat v d < 16 ^ d := by
  rcases eq_or_ne v 0 with rfl | hv
  · rw [bcd_encodeNat_zero]
    positivity
  · rw [bcd_encodeNat_eq, zfill_reverse]
    have hs : strNat v = (chiffres10 v).reverse := by
      rw [strNat, if_neg hv]
    rw [hs, List.reverse_reverse]
    have hlen : (chiffres10 v).length ≤ d := chiffres10_length_le v d h
    have hlt : ∀ c ∈ chiffres10 v ++ List.replicate (d - (chiffres10 v).reverse.length) 0,
        c < 16 := by
      intro c hc
      rcases List.mem_append.mp hc with hc | hc
      · have := chiffres10_lt_dix v c hc
        omega
      · have := List.eq_of_mem_replicate hc
        omega
    have hb := valeurNibbles_lt _ hlt
    have hlen2 : (chiffres10 v ++
        List.replicate (d - (chiffres10 v).reverse.length) 0).length = d := by
      simp only [List.length_append, List.length_replicate, List.length_reverse]
      omega
    rw [hlen2] at hb
    exact hb

/-- Claim C3 witness: a value that fits in four digits packs into 16 bits. -/
theorem claim_C3_temoin : bcd_encodeNat 742 4 < 16 ^ 4 :=
  claim_C3 (v := 742) (d := 4) (by norm_num)

/-- Claim C8: BCD round-trip.  For `value < 10^d`, the `i`-th nibble of
`bcd_encode(value, d)` (counting from the least significant, `i < d`) is
exactly the `i`-th decimal digit of `value`: decoding nibble by nibble
reproduces the `d` decimal digits of `value` left-zero-padded to width `d`. -/
theorem claim_C8 {v d : ℕ} (hv : v < 10 ^ d) :
    ∀ i < d, bcd_encodeNat v d / 16 ^ i % 16 = v / 10 ^ i % 10 := by
  intro i hi
  rcases eq_or_ne v 0 with rfl | hv0
  · rw [bcd_encodeNat_zero]
    simp
  · rw [bcd_encodeNat_eq, zfill_reverse]
    have hs : strNat v = (chiffres10 v).reverse := by
      rw [strNat, if_neg hv0]
    rw [hs, List.reverse_reverse]
    have hlt : ∀ c ∈ chiffres10 v ++ List.replicate (d - (chiffres10 v).reverse.length) 0,
        c < 16 := by
      intro c hc
      rcases List.mem_append.mp hc with hc | hc
      · have := chiffres10_lt_dix v c hc
        omega
      · have := List.eq_of_mem_replicate hc
        omega
    rw [valeurNibbles_getD _ hlt i]
    rcases lt_or_le i (chiffres10 v).length with hil | hil
    · rw [List.getD_append _ _ _ _ hil, chiffres10_getD]
    · rw [List.getD_append_right _ _ _ _ hil, getD_replicate_zero]
      have hv1 : v < 10 ^ i := by
        calc v < 10 ^ (chiffres10 v).length := chiffres10_lt_pow v
          _ ≤ 10 ^ i := Nat.pow_le_pow_right (by norm_num) hil
      rw [Nat.div_eq_of_lt hv1]

/-- Claim C8 witness: the tens digit of 742 is read back from nibble 1. -/
theorem claim_C8_temoin : bcd_encodeNat 742 4 / 16 ^ 1 % 16 = 742 / 10 ^ 1 % 10 :=
  claim_C8 (v := 742) (d := 4) (by norm_num) 1 (by norm_num)

/-- Claim C9: regulator totality.  For every input (any integer targets and
power, any rational `dt`, any state) `calculateur` reaches the normal
return: the encoded words are produced (`some`), never the BCD error path,
because both encoded magnitudes are non-negative by construction. -/
theorem claim_C9 (altitude_desiree taux_entree angle_entree puissance : ℤ)
    (s : SystemeAvion) (dt : ℚ) :
    ∃ mots, (calculateur altitude_desiree taux_entree angle_entree puissance s dt).2.2 =
      some mots := by
  exact ⟨_, encoder_ARINC429_eq _⟩

/-! ## Regulator block lemmas -/

theorem integration_etat (dt : ℚ) (s : SystemeAvion) : (integration dt s).etat = s.etat := rfl

theorem integration_taux (dt : ℚ) (s : SystemeAvion) :
    (integration dt s).taux_monte = s.taux_monte := rfl

theorem integration_angle (dt : ℚ) (s : SystemeAvion) :
    (integration dt s).angle_attaque = s.angle_attaque := rfl

theorem integration_puissance (dt : ℚ) (s : SystemeAvion) :
    (integration dt s).puissance_moteur = s.puissance_moteur := rfl

theorem integration_altitude (dt : ℚ) (s : SystemeAvion) :
    (integration dt s).altitude_actuelle =
      max 0 (min (s.altitude_actuelle + pyInt ((s.taux_monte * 3.28084) * (dt / 60)))
        ALTITUDE_MAX) := rfl

theorem calculateur_etat_eq (ad te ae p : ℤ) (s : SystemeAvion) (dt : ℚ) :
    (calculateur ad te ae p s dt).1 =
      integration dt (blocCroisiere p
        (blocChangement ad (transitionSol ad te ae p (transitionCroisiere ad s)).2.2 p
          (transitionSol ad te ae p (transitionCroisiere ad s)).1).1) := rfl

theorem calculateur_warn_eq (ad te ae p : ℤ) (s : SystemeAvion) (dt : ℚ) :
    (calculateur ad te ae p s dt).2.1 =
      (blocChangement ad (transitionSol ad te ae p (transitionCroisiere ad s)).2.2 p
        (transitionSol ad te ae p (transitionCroisiere ad s)).1).2 := rfl

theorem blocCroisiere_etat (p : ℤ) (s : SystemeAvion) : (blocCroisiere p s).etat = s.etat := by
  unfold blocCroisiere
  split
  · rfl
  · rfl

theorem blocCroisiere_cruise (p : ℤ) (s : SystemeAvion)
    (h : (blocCroisiere p s).etat = .VOL_CROISIERE) :
    (blocCroisiere p s).taux_monte = 0 ∧ (blocCroisiere p s).angle_attaque = 0 := by
  rw [blocCroisiere_etat] at h
  unfold blocCroisiere
  rw [if_pos h]
  exact ⟨rfl, rfl⟩

theorem pyInt_nonpos {q : ℚ} (h : q ≤ 0) : pyInt q ≤ 0 := by
  unfold pyInt
  split_ifs with h0
  · have hq : q = 0 := le_antisymm h h0
    subst hq
    simp
  · have h1 : (0 : ℤ) ≤ ⌊-q⌋ := by
      rw [Int.le_floor]
      simpa using neg_nonneg.mpr h
    omega

theorem calculateur_altitude_bornes (ad te ae p : ℤ) (s : SystemeAvion) (dt : ℚ) :
    0 ≤ (calculateur ad te ae p s dt).1.altitude_actuelle ∧
      (calculateur ad te ae p s dt).1.altitude_actuelle ≤ 40000 := by
  rw [calculateur_etat_eq, integration_altitude]
  constructor
  · exact le_max_left 0 _
  · apply max_le
    · norm_num
    · calc min _ ALTITUDE_MAX ≤ ALTITUDE_MAX := min_le_right _ _
        _ = 40000 := rfl

/-- Claim C1: altitude clamping invariant.  For every sequence of
`calculateur` calls starting from the initial state, the altitude lies in
`[0, 40000]` after every call (the final clamp of every tick enforces it,
for all numeric inputs). -/
theorem claim_C1 (l : List Entrees) (h : l ≠ []) :
    0 ≤ (executer l).altitude_actuelle ∧ (executer l).altitude_actuelle ≤ 40000 := by
  rcases List.eq_nil_or_concat l with rfl | ⟨L, e, rfl⟩
  · exact absurd rfl h
  · simp only [executer, List.concat_eq_append, List.foldl_append, List.foldl_cons,
      List.foldl_nil]
    exact calculateur_altitude_bornes _ _ _ _ _ _

/-- Claim C1 witness: the altitude bound after one ground-start call. -/
theorem claim_C1_temoin :
    0 ≤ (executer [⟨10000, 0, 0, 50, 1/10⟩]).altitude_actuelle ∧
      (executer [⟨10000, 0, 0, 50, 1/10⟩]).altitude_actuelle ≤ 40000 :=
  claim_C1 [⟨10000, 0, 0, 50, 1/10⟩] (by simp)

/-- Claim C5: cruise-mode invariant.  After any call, if the resulting
state is in VOL_CROISIÈRE then its climb rate and angle of attack are
zero, regardless of the inputs and of when cruise was entered. -/
theorem claim_C5 (ad te ae p : ℤ) (s : SystemeAvion) (dt : ℚ)
    (h : (calculateur ad te ae p s dt).1.etat = .VOL_CROISIERE) :
    (calculateur ad te ae p s dt).1.taux_monte = 0 ∧
      (calculateur ad te ae p s dt).1.angle_attaque = 0 := by
  rw [calculateur_etat_eq] at h ⊢
  rw [integration_etat] at h
  rw [integration_taux, integration_angle]
  exact blocCroisiere_cruise _ _ h

/-- Claim C5 witness: a cruise tick at the desired altitude keeps rate and
angle at zero. -/
theorem claim_C5_temoin :
    (calculateur 10000 0 0 50 ⟨10000, 0, 0, 0, .VOL_CROISIERE⟩ 1).1.taux_monte = 0 ∧
      (calculateur 10000 0 0 50 ⟨10000, 0, 0, 0, .VOL_CROISIERE⟩ 1).1.angle_attaque = 0 :=
  claim_C5 10000 0 0 50 ⟨10000, 0, 0, 0, .VOL_CROISIERE⟩ 1 (by
    simp [calculateur, transitionCroisiere, transitionSol, blocChangement,
      blocCroisiere, integration])

/-- Claim C6: ground-start scenario.  One call
`step(10000, 0, 0, 50, dt=0.1)` from the initial state transitions to
CHANGEMENT_ALT with the defaulted angle 5, climb rate `50/10*100 = 500`,
and altitude `trunc(500*3.28084*(0.1/60)) = 2` feet. -/
theorem claim_C6 :
    (calculateur 10000 0 0 50 systemeInitial (1/10)).1.etat = .CHANGEMENT_ALT ∧
    (calculateur 10000 0 0 50 systemeInitial (1/10)).1.angle_attaque = 5 ∧
    (calculateur 10000 0 0 50 systemeInitial (1/10)).1.taux_monte = 500 ∧
    (calculateur 10000 0 0 50 systemeInitial (1/10)).1.altitude_actuelle = 2 := by
  simp [calculateur, systemeInitial, transitionCroisiere, transitionSol,
    blocChangement, blocCroisiere, integration, ALTITUDE_MAX]
  norm_num [pyInt]

/-- Claim C10: OnGround frame property.  When the takeoff condition fails,
a tick leaves mode, rate, angle and power unchanged (the power input is
ignored), and the altitude changes only by integrating the existing rate;
a grounded state with zero rate and in-range altitude is unchanged. -/
theorem claim_C10 (ad te ae p : ℤ) (s : SystemeAvion) (dt : ℚ)
    (h1 : s.etat = .AU_SOL)
    (h2 : ¬((ad > 0 ∧ p > 0) ∨ (te ≠ 0 ∧ ae ≠ 0))) :
    (calculateur ad te ae p s dt).1.etat = .AU_SOL ∧
    (calculateur ad te ae p s dt).1.taux_monte = s.taux_monte ∧
    (calculateur ad te ae p s dt).1.angle_attaque = s.angle_attaque ∧
    (calculateur ad te ae p s dt).1.puissance_moteur = s.puissance_moteur ∧
    (calculateur ad te ae p s dt).1.altitude_actuelle =
      max 0 (min (s.altitude_actuelle + pyInt ((s.taux_monte * 3.28084) * (dt / 60)))
        ALTITUDE_MAX) ∧
    (s.taux_monte = 0 → 0 ≤ s.altitude_actuelle → s.altitude_actuelle ≤ 40000 →
      (calculateur ad te ae p s dt).1 = s) := by
  have e1 : transitionCroisiere ad s = s := by
    rw [transitionCroisiere, if_neg]
    rintro ⟨hc, -⟩
    rw [h1] at hc
    exact absurd hc (by simp)
  have e2 : transitionSol ad te ae p s = (s, te, ae) := by
    rw [transitionSol, if_neg]
    rintro ⟨-, hc⟩
    exact h2 hc
  have e3 : blocChangement ad ae p s = (s, false) := by
    rw [blocChangement, if_neg]
    rw [h1]
    simp
  have e4 : blocCroisiere p s = s := by
    rw [blocCroisiere, if_neg]
    rw [h1]
    simp
  have e5 : (calculateur ad te ae p s dt).1 = integration dt s := by
    rw [calculateur_etat_eq, e1, e2]
    simp only
    rw [e3]
    simp only
    rw [e4]
  refine ⟨?_, ?_, ?_, ?_, ?_, ?_⟩
  · rw [e5, integration_etat, h1]
  · rw [e5, integration_taux]
  · rw [e5, integration_angle]
  · rw [e5, integration_puissance]
  · rw [e5, integration_altitude]
  · intro hz hb1 hb2
    rw [e5]
    have hd : pyInt ((s.taux_monte * 3.28084) * (dt / 60)) = 0 := by
      rw [hz]
      norm_num [pyInt]
    apply SystemeAvion.ext
    · rw [integration_altitude, hd]
      have hA : ALTITUDE_MAX = 40000 := rfl
      rw [hA]
      omega
    · rw [integration_taux]
    · rw [integration_angle]
    · rw [integration_puissance]
    · rw [integration_etat]

/-- Claim C10 witness: the inert initial state is entirely unchanged by a
tick with all-zero inputs. -/
theorem claim_C10_temoin :
    (calculateur 0 0 0 0 systemeInitial 1).1.etat = .AU_SOL ∧
    (calculateur 0 0 0 0 systemeInitial 1).1.taux_monte = systemeInitial.taux_monte ∧
    (calculateur 0 0 0 0 systemeInitial 1).1.angle_attaque = systemeInitial.angle_attaque ∧
    (calculateur 0 0 0 0 systemeInitial 1).1.puissance_moteur =
      systemeInitial.puissance_moteur ∧
    (calculateur 0 0 0 0 systemeInitial 1).1.altitude_actuelle =
      max 0 (min (systemeInitial.altitude_actuelle +
        pyInt ((systemeInitial.taux_monte * 3.28084) * (1 / 60))) ALTITUDE_MAX) ∧
    (systemeInitial.taux_monte = 0 → 0 ≤ systemeInitial.altitude_actuelle →
      systemeInitial.altitude_actuelle ≤ 40000 →
      (calculateur 0 0 0 0 systemeInitial 1).1 = systemeInitial) :=
  claim_C10 0 0 0 0 systemeInitial 1 rfl (by decide)

/-- Warning characterization of the CHANGEMENT_ALT block: when the block
leaves the state in CHANGEMENT_ALT, the warning flag is exactly the signed
comparison `angle_attaque > 15` on the stored angle. -/
theorem blocChangement_warn (ad ae p : ℤ) (s : SystemeAvion)
    (h : (blocChangement ad ae p s).1.etat = .CHANGEMENT_ALT) :
    (blocChangement ad ae p s).2 =
      decide ((blocChangement ad ae p s).1.angle_attaque > 15) := by
  unfold blocChangement at h ⊢
  by_cases h1 : s.etat = .CHANGEMENT_ALT
  · simp only [if_pos h1] at h ⊢
    by_cases h2 : (s.altitude_actuelle = ad ∧ ad ≠ 0) ∨ s.altitude_actuelle ≥ ALTITUDE_MAX
    · rw [if_pos h2] at h
      exact absurd h (by simp)
    · rw [if_neg h2] at h ⊢
  · rw [if_neg h1] at h
    exact absurd h h1

/-- Claim C4 counterexample: a Transitioning descent tick that stores an
angle of attack of -20 (absolute value above 15) raises no advisory: the
source compares the signed angle (`> 15.0`), not its absolute value. -/
theorem claim_C4_contre :
    (calculateur 5000 0 20 50 ⟨10000, 0, 0, 0, .CHANGEMENT_ALT⟩ 1).1.etat =
      .CHANGEMENT_ALT ∧
    (calculateur 5000 0 20 50 ⟨10000, 0, 0, 0, .CHANGEMENT_ALT⟩ 1).1.angle_attaque = -20 ∧
    (calculateur 5000 0 20 50 ⟨10000, 0, 0, 0, .CHANGEMENT_ALT⟩ 1).1.angle_attaque < -15 ∧
    (calculateur 5000 0 20 50 ⟨10000, 0, 0, 0, .CHANGEMENT_ALT⟩ 1).2.1 = false := by
  simp [calculateur, transitionCroisiere, transitionSol, blocChangement,
    blocCroisiere, integration, ALTITUDE_MAX]
  norm_num [pyInt]

/-- Claim C4 amended: the advisory uses the SIGNED comparison: on a tick
whose resulting mode is CHANGEMENT_ALT, the stall-angle advisory is raised
iff the resulting `angle_attaque > 15.0`; a descent tick that sets the
angle below -15.0 therefore raises no advisory. -/
theorem claim_C4 (ad te ae p : ℤ) (s : SystemeAvion) (dt : ℚ)
    (h : (calculateur ad te ae p s dt).1.etat = .CHANGEMENT_ALT) :
    ((calculateur ad te ae p s dt).2.1 = true ↔
      (calculateur ad te ae p s dt).1.angle_attaque > 15) := by
  rw [calculateur_warn_eq]
  rw [calculateur_etat_eq] at h ⊢
  rw [integration_etat, blocCroisiere_etat] at h
  rw [integration_angle]
  have hnc : ¬((blocChangement ad (transitionSol ad te ae p
      (transitionCroisiere ad s)).2.2 p
      (transitionSol ad te ae p (transitionCroisiere ad s)).1).1.etat =
      .VOL_CROISIERE) := by
    rw [h]
    simp
  rw [blocCroisiere, if_neg hnc]
  rw [blocChangement_warn _ _ _ _ h]
  exact decide_eq_true_iff

/-- Claim C4 witness: the ground-start tick ends in CHANGEMENT_ALT with
angle 5, and indeed raises no advisory. -/
theorem claim_C4_temoin :
    ((calculateur 10000 0 0 50 systemeInitial (1/10)).2.1 = true ↔
      (calculateur 10000 0 0 50 systemeInitial (1/10)).1.angle_attaque > 15) :=
  claim_C4 10000 0 0 50 systemeInitial (1/10) (by
    simp [calculateur, systemeInitial, transitionCroisiere, transitionSol,
      blocChangement, blocCroisiere, integration, ALTITUDE_MAX])

/-- Claim C7 counterexample: from Cruise at 10000 ft, `step(5000, ...)`
with engine power 50 > 0, dt = 1 > 0 but a negative desired angle (-5)
stores a POSITIVE angle of attack (+5): the descent stores the negation of
the input angle, which is non-positive only for non-negative inputs. -/
theorem claim_C7_contre :
    (calculateur 5000 0 (-5) 50 ⟨10000, 0, 0, 0, .VOL_CROISIERE⟩ 1).1.etat =
      .CHANGEMENT_ALT ∧
    (calculateur 5000 0 (-5) 50 ⟨10000, 0, 0, 0, .VOL_CROISIERE⟩ 1).1.angle_attaque = 5 ∧
    ¬((calculateur 5000 0 (-5) 50 ⟨10000, 0, 0, 0, .VOL_CROISIERE⟩ 1).1.angle_attaque
      ≤ 0) := by
  simp [calculateur, transitionCroisiere, transitionSol, blocChangement,
    blocCroisiere, integration, ALTITUDE_MAX]

/-- Claim C7 amended: descent sign scenario, additionally assuming the
supplied desired angle is non-negative.  From Cruise at 10000 ft,
`step(5000, ...)` with positive power and dt switches to CHANGEMENT_ALT,
stores a negative climb rate and a non-positive (negated) angle, the
altitude does not increase, and it strictly decreases as soon as the
integrated delta is at least one foot. -/
theorem claim_C7 (te ae p : ℤ) (s : SystemeAvion) (dt : ℚ)
    (h1 : s.etat = .VOL_CROISIERE) (h2 : s.altitude_actuelle = 10000)
    (hp : 0 < p) (hdt : 0 < dt) (hae : 0 ≤ ae) :
    (calculateur 5000 te ae p s dt).1.etat = .CHANGEMENT_ALT ∧
    (calculateur 5000 te ae p s dt).1.taux_monte < 0 ∧
    (calculateur 5000 te ae p s dt).1.angle_attaque ≤ 0 ∧
    (calculateur 5000 te ae p s dt).1.altitude_actuelle ≤ 10000 ∧
    (pyInt (((calculateur 5000 te ae p s dt).1.taux_monte * 3.28084) * (dt / 60)) ≤ -1 →
      (calculateur 5000 te ae p s dt).1.altitude_actuelle < 10000) := by
  have hpq : (0 : ℚ) < (p : ℚ) := by exact_mod_cast hp
  have htaux : -(((p : ℚ) / 10) * 100) < 0 := by
    have hx : (0 : ℚ) < ((p : ℚ) / 10) * 100 := by positivity
    linarith
  have e1 : transitionCroisiere 5000 s = { s with etat := .CHANGEMENT_ALT } := by
    rw [transitionCroisiere, if_pos]
    exact ⟨h1, by omega⟩
  have e2 : transitionSol 5000 te ae p { s with etat := .CHANGEMENT_ALT } =
      ({ s with etat := .CHANGEMENT_ALT }, te, ae) := by
    rw [transitionSol, if_neg]
    rintro ⟨hc, -⟩
    exact absurd hc (by simp)
  have e3 : blocChangement 5000 ae p { s with etat := .CHANGEMENT_ALT } =
      ((⟨s.altitude_actuelle, -(((p : ℚ) / 10) * 100),
        ((-(if ae = 0 then 5 else ae) : ℤ) : ℚ), p, .CHANGEMENT_ALT⟩ : SystemeAvion),
        decide (((-(if ae = 0 then 5 else ae) : ℤ) : ℚ) > 15)) := by
    rw [blocChangement, if_pos rfl]
    simp [h2, ALTITUDE_MAX]
  have hang : ((-(if ae = 0 then 5 else ae) : ℤ) : ℚ) ≤ 0 := by
    have hpos : (0 : ℤ) < if ae = 0 then 5 else ae := by
      split_ifs with h0
      · omega
      · omega
    have : (-(if ae = 0 then 5 else ae) : ℤ) ≤ 0 := by omega
    exact_mod_cast this
  have e4 : (calculateur 5000 te ae p s dt).1 =
      integration dt (⟨s.altitude_actuelle, -(((p : ℚ) / 10) * 100),
        ((-(if ae = 0 then 5 else ae) : ℤ) : ℚ), p, .CHANGEMENT_ALT⟩ : SystemeAvion) := by
    rw [calculateur_etat_eq, e1, e2]
    simp only
    rw [e3]
    simp only
    rw [blocCroisiere, if_neg (by simp)]
  have hd : pyInt ((-(((p : ℚ) / 10) * 100) * 3.28084) * (dt / 60)) ≤ 0 := by
    apply pyInt_nonpos
    have h60 : (0 : ℚ) < dt / 60 := by positivity
    nlinarith
  refine ⟨?_, ?_, ?_, ?_, ?_⟩
  · rw [e4, integration_etat]
  · rw [e4, integration_taux]
    exact htaux
  · rw [e4, integration_angle]
    exact hang
  · rw [e4, integration_altitude]
    simp only [h2]
    have hA : ALTITUDE_MAX = 40000 := rfl
    rw [hA]
    omega
  · rw [e4, integration_altitude, integration_taux]
    simp only [h2]
    intro hle
    have hA : ALTITUDE_MAX = 40000 := rfl
    rw [hA]
    omega

/-- Claim C7 witness: the descent tick with a zero desired angle. -/
theorem claim_C7_temoin :
    (calculateur 5000 0 0 50 ⟨10000, 0, 0, 0, .VOL_CROISIERE⟩ 1).1.etat =
      .CHANGEMENT_ALT ∧
    (calculateur 5000 0 0 50 ⟨10000, 0, 0, 0, .VOL_CROISIERE⟩ 1).1.taux_monte < 0 ∧
    (calculateur 5000 0 0 50 ⟨10000, 0, 0, 0, .VOL_CROISIERE⟩ 1).1.angle_attaque ≤ 0 ∧
    (calculateur 5000 0 0 50 ⟨10000, 0, 0, 0, .VOL_CROISIERE⟩ 1).1.altitude_actuelle
      ≤ 10000 ∧
    (pyInt (((calculateur 5000 0 0 50 ⟨10000, 0, 0, 0, .VOL_CROISIERE⟩ 1).1.taux_monte *
        3.28084) * (1 / 60)) ≤ -1 →
      (calculateur 5000 0 0 50 ⟨10000, 0, 0, 0, .VOL_CROISIERE⟩ 1).1.altitude_actuelle
        < 10000) :=
  claim_C7 0 0 50 ⟨10000, 0, 0, 0, .VOL_CROISIERE⟩ 1 rfl rfl (by omega) (by norm_num)
    (by omega)
